import Mathlib

/-!
Verification of the HoneyPOT intelligence-extraction and scoring engine.

This file gives a shallow embedding, in Lean 4, of the deterministic core of
the repository (the keyword classifier `detectScam`, the entity extractor
`extractIntelligence` together with its module-level global regular
expressions, the transcript summarizer `createFinalOutput`, and the scorer
`evaluateFinalOutput`), and proves the stated properties of that code.

JavaScript strings are modelled as Lean `String`s, JavaScript `Set<string>`
objects as insertion-ordered duplicate-free `List String`s, and JavaScript
numbers as `ℚ`; the record types follow `types.ts`.  The six
module-level regular expressions carry a mutable `lastIndex` because they are
compiled with the `g` flag; that state is modelled explicitly by threading a
`RegexState` value through `extractIntelligence`.
-/

namespace HoneyPot

/-- Character set matched by the JavaScript regex class `\s` (and hence
stripped from phone numbers by `replace(/[-\s()]/g, '')`). -/
def jsWhitespace : List Char :=
  [' ', '\t', '\n', '\r', '\x0b', '\x0c',
   '\u00A0', '\u1680', '\u2000', '\u2001', '\u2002', '\u2003', '\u2004',
   '\u2005', '\u2006', '\u2007', '\u2008', '\u2009', '\u200A',
   '\u2028', '\u2029', '\u202F', '\u205F', '\u3000', '\uFEFF']

/-- Whether a character is JavaScript whitespace (regex `\s`). -/
def isJsSpace (c : Char) : Bool := jsWhitespace.contains c

/-- Model of JavaScript `String.prototype.toLowerCase` (the keyword list and
all strings the claims quantify over are ASCII, where the two agree). -/
def toLowerJS (s : String) : String := String.mk (s.data.map Char.toLower)

/-- Model of JavaScript `String.prototype.includes`: substring containment. -/
def includesJS (hay needle : String) : Bool := decide (needle.data <:+: hay.data)

/-- The scam keyword list from `src/constants.ts` (`SCAM_KEYWORDS`). -/
def SCAM_KEYWORDS : List String :=
  ["urgent", "blocked", "verify", "otp", "account compromised", "cashback",
   "won", "claim", "link", "expires", "congratulations", "reward", "offer",
   "limited time", "important security alert", "suspicious activity",
   "update your information", "login now", "verify your identity",
   "click here", "download now", "payment failed", "transaction alert",
   "prize", "lucky draw", "your package is delayed"]

/-- Embedding of `detectScam` from the honeypot logic module: once the flag is
set it stays set, otherwise the lowercased message is scanned for any scam
keyword as a substring. -/
def detectScam (message : String) (currentScamDetected : Bool) : Bool :=
  if currentScamDetected then
    true
  else
    SCAM_KEYWORDS.any (fun keyword =>
      includesJS (toLowerJS message) (toLowerJS keyword))

theorem detectScam_false_iff (message : String) :
    detectScam message false = true ↔
      ∃ k ∈ SCAM_KEYWORDS, (toLowerJS k).data <:+: (toLowerJS message).data := by
  simp [detectScam, includesJS, List.any_eq_true]

theorem scamKeywords_have_nonspace :
    SCAM_KEYWORDS.all (fun k => (toLowerJS k).data.any (fun c => !isJsSpace c)) = true := by
  decide

theorem toLower_of_isJsSpace {c : Char} (h : isJsSpace c = true) : c.toLower = c := by
  have hmem : c ∈ jsWhitespace := by
    have hx := (List.contains_iff_exists_mem_beq).mp h
    obtain ⟨a, ha, hb⟩ := hx
    rwa [show a = c from (beq_iff_eq.mp hb).symm] at ha
  fin_cases hmem <;> decide

theorem detectScam_whitespace (message : String)
    (hws : ∀ c ∈ message.data, isJsSpace c = true) :
    detectScam message false = false := by
  cases hdet : detectScam message false
  · rfl
  · exfalso
    obtain ⟨k, hk, hsub⟩ := (detectScam_false_iff message).1 hdet
    have hmd : ∀ c ∈ (toLowerJS message).data, isJsSpace c = true := by
      intro c hc
      simp only [toLowerJS, List.mem_map] at hc
      obtain ⟨c0, hc0, rfl⟩ := hc
      rw [toLower_of_isJsSpace (hws c0 hc0)]
      exact hws c0 hc0
    have hnon := List.all_eq_true.mp scamKeywords_have_nonspace k hk
    obtain ⟨c, hc, hcn⟩ := List.any_eq_true.mp hnon
    rw [hmd c (hsub.subset hc)] at hcn
    simp at hcn

/-- C4: once the per-session scam flag is true, `detectScam` returns true for
every message text — the flag is a one-way latch. -/
theorem detectScam_latch (message : String) : detectScam message true = true := rfl

/-- C5: with the flag still false, `detectScam` returns true exactly when the
lowercased message contains some scam keyword (lowercased) as a substring;
consequently an empty or whitespace-only message yields false. -/
theorem detectScam_keyword_characterization (message : String) :
    (detectScam message false = true ↔
      ∃ k ∈ SCAM_KEYWORDS, (toLowerJS k).data <:+: (toLowerJS message).data) ∧
    ((∀ c ∈ message.data, isJsSpace c = true) → detectScam message false = false) :=
  ⟨detectScam_false_iff message, detectScam_whitespace message⟩

/-- Witness for C5: the whitespace-only message "   " is classified false. -/
theorem detectScam_keyword_characterization_witness :
    detectScam "   " false = false :=
  (detectScam_keyword_characterization "   ").2 (by decide)

/-- Embedding of `enum Sender` from `types.ts` (in `src/services`): the three
sender tags `'scammer'`, `'honeypot'` and `'user'` (the last marks simulated
external API callers). -/
inductive Sender where
  | scammer
  | honeypot
  | user
deriving DecidableEq

/-- Embedding of `interface ConversationMessage` from `types.ts`: a
`MessagePart` (sender, text, ISO-timestamp string) extended with a `type`
tag used to distinguish turns for chat display. -/
structure ConversationMessage where
  sender : Sender
  text : String
  timestamp : String
  type : Sender
deriving DecidableEq

/-- The six-category extraction mapping of `types.ts`.  JavaScript
`Set<string>` fields (`interface ExtractedIntelligence`) are modelled as
insertion-ordered duplicate-free lists; the same shape also serves as the
inline `string[]` record stored in `FinalOutput.extractedIntelligence`
(where `Array.from` on the model is the identity). -/
structure ExtractedIntelligence where
  phoneNumbers : List String
  bankAccounts : List String
  upiIds : List String
  phishingLinks : List String
  emailAddresses : List String
  otherIds : List String
deriving DecidableEq

/-- Embedding of `interface EngagementMetrics` from `types.ts`; both fields
are JavaScript numbers, modelled as `ℚ`. -/
structure EngagementMetrics where
  totalMessagesExchanged : ℚ
  engagementDurationSeconds : ℚ
deriving DecidableEq

/-- Embedding of `interface FinalOutput` from `types.ts`.  All six properties
are required by the interface — in particular `agentNotes` is a plain
`string` (possibly empty), not an optional field. -/
structure FinalOutput where
  sessionId : String
  scamDetected : Bool
  totalMessagesExchanged : ℚ
  extractedIntelligence : ExtractedIntelligence
  engagementMetrics : EngagementMetrics
  agentNotes : String
deriving DecidableEq

/-- Embedding of `interface Metadata` from `types.ts` (channel, language,
locale; its open index signature `[key: string]: any` admits further fields,
none of which the core ever reads). -/
structure Metadata where
  channel : String
  language : String
  locale : String
deriving DecidableEq

/-- Embedding of `interface FakeData` from `types.ts`: five declared optional
keys (`bankAccount?`, `upiId?`, `phoneNumber?`, `phishingLink?`,
`emailAddress?`) plus an open index signature `[key: string]: string |
undefined`.  The scorer consumes it only through `Object.entries`, so it is
modelled as that entries list in insertion order: a key that is absent does
not occur, and `none` models a key explicitly set to `undefined`. -/
abbrev FakeData := List (String × Option String)

/-- Embedding of `interface Scenario` from `types.ts`; only `fakeData` is
consumed by the scorer. -/
structure Scenario where
  scenarioId : String
  name : String
  description : String
  scamType : String
  initialMessage : String
  metadata : Metadata
  weight : ℚ
  maxTurns : ℚ
  fakeData : FakeData

/-- The score breakdown returned by `evaluateFinalOutput`. -/
structure ScoreBreakdown where
  scamDetection : ℚ
  intelligenceExtraction : ℚ
  engagementQuality : ℚ
  responseStructure : ℚ
  total : ℚ
deriving DecidableEq

/-- Embedding of `createFinalOutput` from `src/api.ts`: pure aggregation of the
session state into a `FinalOutput`; both message counters are the length of
the conversation history, and the scenario argument is never read. -/
def createFinalOutput (sessionId : String)
    (conversationHistory : List ConversationMessage) (scamDetected : Bool)
    (finalExtractedIntelligence : ExtractedIntelligence)
    (engagementDurationSeconds : ℚ) (agentNotes : String)
    (_scenario : Scenario) : FinalOutput :=
  { sessionId := sessionId
    scamDetected := scamDetected
    totalMessagesExchanged := (conversationHistory.length : ℚ)
    extractedIntelligence :=
      { phoneNumbers := finalExtractedIntelligence.phoneNumbers
        bankAccounts := finalExtractedIntelligence.bankAccounts
        upiIds := finalExtractedIntelligence.upiIds
        phishingLinks := finalExtractedIntelligence.phishingLinks
        emailAddresses := finalExtractedIntelligence.emailAddresses
        otherIds := finalExtractedIntelligence.otherIds }
    engagementMetrics :=
      { totalMessagesExchanged := (conversationHistory.length : ℚ)
        engagementDurationSeconds := engagementDurationSeconds }
    agentNotes := agentNotes }

/-- The `keyMapping` table of `evaluateFinalOutput` (fakeData key → extraction
category key); `none` models absence from the mapping object. -/
def keyMapping (fakeKey : String) : Option String :=
  if fakeKey = "bankAccount" then some "bankAccounts"
  else if fakeKey = "upiId" then some "upiIds"
  else if fakeKey = "phoneNumber" then some "phoneNumbers"
  else if fakeKey = "phishingLink" then some "phishingLinks"
  else if fakeKey = "emailAddress" then some "emailAddresses"
  else none

/-- Model of the JavaScript lookup `extracted[outputKey] || []`: the six known
category keys return their field, anything else is `undefined` and falls back
to the empty array. -/
def categoryValues (e : ExtractedIntelligence) (key : String) : List String :=
  if key = "phoneNumbers" then e.phoneNumbers
  else if key = "bankAccounts" then e.bankAccounts
  else if key = "upiIds" then e.upiIds
  else if key = "phishingLinks" then e.phishingLinks
  else if key = "emailAddresses" then e.emailAddresses
  else if key = "otherIds" then e.otherIds
  else []

/-- The `requiredFields` array of `evaluateFinalOutput`. -/
def requiredFields : List String :=
  ["sessionId", "scamDetected", "extractedIntelligence", "engagementMetrics",
   "totalMessagesExchanged"]

/-- The `optionalFields` array of `evaluateFinalOutput`. -/
def optionalFields : List String := ["agentNotes"]

/-- The property names of a `FinalOutput` object built against the `types.ts`
interface: all six fields are required, so JavaScript `in` finds exactly
these. -/
def finalOutputKeys : List String :=
  ["sessionId", "scamDetected", "totalMessagesExchanged",
   "extractedIntelligence", "engagementMetrics", "agentNotes"]

/-- Model of the JavaScript check `field in finalOutput`: a `FinalOutput`
typed by `types.ts` has exactly the six declared properties (hence the result
does not depend on the particular object). -/
def hasField (_finalOutput : FinalOutput) (fieldName : String) : Bool :=
  finalOutputKeys.contains fieldName

/-- Model of the JavaScript truthiness check `finalOutput[field]` used in the
optional-fields loop; the loop only ever visits `agentNotes`, a required
string, which is truthy iff non-empty. -/
def fieldTruthy (f : FinalOutput) (fieldName : String) : Bool :=
  if fieldName = "agentNotes" then decide (f.agentNotes ≠ "") else true

/-- Body of the intelligence-extraction loop of `evaluateFinalOutput` for one
`Object.entries(fakeData)` entry: skip `undefined` or empty planted values
(`if (fakeValue)`), award +10 if some extracted value of the corresponding
category contains the planted value as a substring. -/
def intelStep (e : ExtractedIntelligence) (acc : ℚ) (kv : String × Option String) : ℚ :=
  match kv.2 with
  | some fakeValue =>
    if fakeValue ≠ "" then
      if (categoryValues e ((keyMapping kv.1).getD kv.1)).any
          (fun v => includesJS v fakeValue) then acc + 10
      else acc
    else acc
  | none => acc

/-- The intelligence-extraction accumulation loop of `evaluateFinalOutput`. -/
def intelRaw (e : ExtractedIntelligence) (fakeData : FakeData) : ℚ :=
  fakeData.foldl (intelStep e) 0

/-- The response-structure accumulation loops of `evaluateFinalOutput`: +5 per
required field present, then +2.5 per optional field present and truthy. -/
def responseRaw (f : FinalOutput) : ℚ :=
  optionalFields.foldl (fun acc fieldName =>
    if hasField f fieldName && fieldTruthy f fieldName then acc + 5 / 2 else acc)
    (requiredFields.foldl (fun acc fieldName =>
      if hasField f fieldName then acc + 5 else acc) 0)

/-- Embedding of `evaluateFinalOutput` from `src/api.ts`.  The
`conversationHistory` parameter is kept because the source declares it, though
its body never reads it. -/
def evaluateFinalOutput (finalOutput : FinalOutput) (scenario : Scenario)
    (_conversationHistory : List ConversationMessage) : ScoreBreakdown :=
  let scamDetection : ℚ := if finalOutput.scamDetected then 20 else 0
  let intelligenceExtraction : ℚ :=
    min (intelRaw finalOutput.extractedIntelligence scenario.fakeData) 40
  let duration : ℚ := finalOutput.engagementMetrics.engagementDurationSeconds
  let messages : ℚ := finalOutput.engagementMetrics.totalMessagesExchanged
  let engagementQuality : ℚ :=
    (if duration > 0 then 5 else 0) + (if duration > 60 then 5 else 0) +
    (if messages > 0 then 5 else 0) + (if messages ≥ 5 then 5 else 0)
  let responseStructure : ℚ := min (responseRaw finalOutput) 20
  { scamDetection := scamDetection
    intelligenceExtraction := intelligenceExtraction
    engagementQuality := engagementQuality
    responseStructure := responseStructure
    total := scamDetection + intelligenceExtraction + engagementQuality +
      responseStructure }

/-- Whether a fakeData entry earns its 10 points against extraction results
`e`: a defined, non-empty planted value with some extracted value of the
corresponding category containing it. -/
def intelMatchPred (e : ExtractedIntelligence) (kv : String × Option String) : Bool :=
  match kv.2 with
  | some fakeValue =>
    decide (fakeValue ≠ "") &&
      (categoryValues e ((keyMapping kv.1).getD kv.1)).any
        (fun v => includesJS v fakeValue)
  | none => false

theorem intel_foldl_eq (e : ExtractedIntelligence) :
    ∀ (l : FakeData) (a : ℚ),
      l.foldl (intelStep e) a
        = a + 10 * ((l.filter (fun kv => intelMatchPred e kv)).length : ℚ) := by
  intro l
  induction l with
  | nil => intro a; simp
  | cons kv t ih =>
    intro a
    rw [List.foldl_cons, List.filter_cons]
    obtain ⟨k1, v⟩ := kv
    cases v with
    | none =>
      have hs : intelStep e a (k1, none) = a := rfl
      have hp : intelMatchPred e (k1, none) = false := rfl
      rw [hs, hp]
      simp only [Bool.false_eq_true, if_false]
      exact ih a
    | some fv =>
      by_cases h1 : fv = ""
      · have hs : intelStep e a (k1, some fv) = a := by
          show (if fv ≠ "" then
              (if ((categoryValues e ((keyMapping k1).getD k1)).any
                (fun v => includesJS v fv)) then a + 10 else a)
            else a) = a
          rw [if_neg (fun hcon => hcon h1)]
        have hp : intelMatchPred e (k1, some fv) = false := by
          show (decide (fv ≠ "") &&
            ((categoryValues e ((keyMapping k1).getD k1)).any
              (fun v => includesJS v fv))) = false
          rw [h1]
          simp
        rw [hs, hp]
        simp only [Bool.false_eq_true, if_false]
        exact ih a
      · by_cases h2 : ((categoryValues e ((keyMapping k1).getD k1)).any
            (fun v => includesJS v fv)) = true
        · have hs : intelStep e a (k1, some fv) = a + 10 := by
            show (if fv ≠ "" then
                (if ((categoryValues e ((keyMapping k1).getD k1)).any
                  (fun v => includesJS v fv)) then a + 10 else a)
              else a) = a + 10
            rw [if_pos h1, if_pos h2]
          have hp : intelMatchPred e (k1, some fv) = true := by
            show (decide (fv ≠ "") &&
              ((categoryValues e ((keyMapping k1).getD k1)).any
                (fun v => includesJS v fv))) = true
            rw [h2]
            simp [h1]
          rw [hs, hp, if_pos rfl, ih, List.length_cons]
          push_cast
          ring
        · have hs : intelStep e a (k1, some fv) = a := by
            show (if fv ≠ "" then
                (if ((categoryValues e ((keyMapping k1).getD k1)).any
                  (fun v => includesJS v fv)) then a + 10 else a)
              else a) = a
            rw [if_pos h1, if_neg h2]
          have hp : intelMatchPred e (k1, some fv) = false := by
            show (decide (fv ≠ "") &&
              ((categoryValues e ((keyMapping k1).getD k1)).any
                (fun v => includesJS v fv))) = false
            rw [Bool.not_eq_true _ |>.mp h2, Bool.and_false]
          rw [hs, hp]
          simp only [Bool.false_eq_true, if_false]
          exact ih a

theorem intelRaw_eq (e : ExtractedIntelligence) (l : FakeData) :
    intelRaw e l = 10 * ((l.filter (fun kv => intelMatchPred e kv)).length : ℚ) := by
  rw [intelRaw, intel_foldl_eq]
  ring

theorem intelRaw_nonneg (e : ExtractedIntelligence) (l : FakeData) :
    0 ≤ intelRaw e l := by
  rw [intelRaw_eq]
  positivity

theorem responseRaw_eq (f : FinalOutput) :
    responseRaw f = 25 + (if f.agentNotes ≠ "" then 5 / 2 else 0) := by
  rw [responseRaw]
  rw [show requiredFields = ["sessionId", "scamDetected", "extractedIntelligence",
    "engagementMetrics", "totalMessagesExchanged"] from rfl]
  rw [show optionalFields = ["agentNotes"] from rfl]
  simp only [List.foldl_cons, List.foldl_nil]
  rw [if_pos (show hasField f "sessionId" = true from rfl),
    if_pos (show hasField f "scamDetected" = true from rfl),
    if_pos (show hasField f "extractedIntelligence" = true from rfl),
    if_pos (show hasField f "engagementMetrics" = true from rfl),
    if_pos (show hasField f "totalMessagesExchanged" = true from rfl)]
  rw [show hasField f "agentNotes" = true from rfl, Bool.true_and]
  rw [show fieldTruthy f "agentNotes" = decide (f.agentNotes ≠ "") from by
    unfold fieldTruthy
    rw [if_pos rfl]]
  by_cases hn : f.agentNotes = ""
  · have hd : decide (f.agentNotes ≠ "") = false := by simp [hn]
    rw [hd]
    simp only [Bool.false_eq_true, if_false]
    rw [if_neg (fun hcon => hcon hn)]
    norm_num
  · have hd : decide (f.agentNotes ≠ "") = true := by simp [hn]
    rw [hd, if_pos rfl, if_pos hn]
    norm_num

theorem responseStructure_eq_twenty (f : FinalOutput) (s : Scenario)
    (conv : List ConversationMessage) :
    (evaluateFinalOutput f s conv).responseStructure = 20 := by
  show min (responseRaw f) 20 = 20
  rw [min_eq_right]
  rw [responseRaw_eq]
  split_ifs <;> norm_num

theorem engagement_bounds (f : FinalOutput) (s : Scenario)
    (conv : List ConversationMessage) :
    0 ≤ (evaluateFinalOutput f s conv).engagementQuality ∧
      (evaluateFinalOutput f s conv).engagementQuality ≤ 20 := by
  have h : (evaluateFinalOutput f s conv).engagementQuality =
      (if f.engagementMetrics.engagementDurationSeconds > 0 then (5 : ℚ) else 0) +
      (if f.engagementMetrics.engagementDurationSeconds > 60 then (5 : ℚ) else 0) +
      (if f.engagementMetrics.totalMessagesExchanged > 0 then (5 : ℚ) else 0) +
      (if f.engagementMetrics.totalMessagesExchanged ≥ 5 then (5 : ℚ) else 0) := rfl
  rw [h]
  constructor <;> split_ifs <;> norm_num

theorem scamDetection_cases (f : FinalOutput) (s : Scenario)
    (conv : List ConversationMessage) :
    (evaluateFinalOutput f s conv).scamDetection = 0 ∨
      (evaluateFinalOutput f s conv).scamDetection = 20 := by
  show (if f.scamDetected then (20 : ℚ) else 0) = 0 ∨
    (if f.scamDetected then (20 : ℚ) else 0) = 20
  split_ifs <;> simp

theorem intelligence_bounds (f : FinalOutput) (s : Scenario)
    (conv : List ConversationMessage) :
    0 ≤ (evaluateFinalOutput f s conv).intelligenceExtraction ∧
      (evaluateFinalOutput f s conv).intelligenceExtraction ≤ 40 := by
  show 0 ≤ min (intelRaw f.extractedIntelligence s.fakeData) 40 ∧
    min (intelRaw f.extractedIntelligence s.fakeData) 40 ≤ 40
  exact ⟨le_min (intelRaw_nonneg _ _) (by norm_num), min_le_right _ _⟩

/-- C1: cap law — every score breakdown produced by `evaluateFinalOutput` has
`intelligenceExtraction ∈ [0,40]`, `responseStructure ∈ [0,20]`,
`engagementQuality ∈ [0,20]`, `scamDetection ∈ {0,20}`, and `total ∈ [0,100]`. -/
theorem evaluateFinalOutput_cap_law (f : FinalOutput) (s : Scenario)
    (conv : List ConversationMessage) :
    (0 ≤ (evaluateFinalOutput f s conv).intelligenceExtraction ∧
      (evaluateFinalOutput f s conv).intelligenceExtraction ≤ 40) ∧
    (0 ≤ (evaluateFinalOutput f s conv).responseStructure ∧
      (evaluateFinalOutput f s conv).responseStructure ≤ 20) ∧
    (0 ≤ (evaluateFinalOutput f s conv).engagementQuality ∧
      (evaluateFinalOutput f s conv).engagementQuality ≤ 20) ∧
    ((evaluateFinalOutput f s conv).scamDetection = 0 ∨
      (evaluateFinalOutput f s conv).scamDetection = 20) ∧
    (0 ≤ (evaluateFinalOutput f s conv).total ∧
      (evaluateFinalOutput f s conv).total ≤ 100) := by
  have hintel := intelligence_bounds f s conv
  have hresp := responseStructure_eq_twenty f s conv
  have heng := engagement_bounds f s conv
  have hscam := scamDetection_cases f s conv
  refine ⟨hintel, ⟨by rw [hresp]; norm_num, by rw [hresp]⟩, heng, hscam, ?_⟩
  have htot : (evaluateFinalOutput f s conv).total =
      (evaluateFinalOutput f s conv).scamDetection +
      (evaluateFinalOutput f s conv).intelligenceExtraction +
      (evaluateFinalOutput f s conv).engagementQuality +
      (evaluateFinalOutput f s conv).responseStructure := rfl
  rw [htot, hresp]
  rcases hscam with h0 | h20
  · rw [h0]
    constructor <;> linarith [hintel.1, hintel.2, heng.1, heng.2]
  · rw [h20]
    constructor <;> linarith [hintel.1, hintel.2, heng.1, heng.2]

/-- The intelligence-extraction score exactly as the spec words it: 10 points
per defined non-empty planted value whose corresponding extraction category
contains it as a substring, summed over the `fakeData` entries, then clamped
to 40. -/
def specIntelligenceScore (f : FinalOutput) (s : Scenario) : ℚ :=
  min (10 * ((s.fakeData.filter
    (fun kv => intelMatchPred f.extractedIntelligence kv)).length : ℚ)) 40

/-- C2: the intelligence-extraction score computed by `evaluateFinalOutput`
equals the spec formula: 10 points per matched defined non-empty planted
value, clamped at 40; categories with no planted value contribute nothing. -/
theorem intelligenceExtraction_matches_spec (f : FinalOutput) (s : Scenario)
    (conv : List ConversationMessage) :
    (evaluateFinalOutput f s conv).intelligenceExtraction =
      specIntelligenceScore f s := by
  show min (intelRaw f.extractedIntelligence s.fakeData) 40 = _
  rw [intelRaw_eq, specIntelligenceScore]

/-- C7: scoring scenario — all required fields present, empty agent notes,
90-second duration, 6 messages, scam detected, and exactly one planted bank
account that appears as a substring of some extracted bank-account value,
score 20 / 10 / 20 / 20 with total 70. -/
theorem evaluateFinalOutput_example (f : FinalOutput) (s : Scenario)
    (conv : List ConversationMessage) (planted : String)
    (hscam : f.scamDetected = true)
    (_hnotes : f.agentNotes = "")
    (hdur : f.engagementMetrics.engagementDurationSeconds = 90)
    (hmsg : f.engagementMetrics.totalMessagesExchanged = 6)
    (_hmsgTop : f.totalMessagesExchanged = 6)
    (hfake : s.fakeData = [("bankAccount", some planted)])
    (hplanted : planted ≠ "")
    (hmatch : (f.extractedIntelligence.bankAccounts.any
      (fun v => includesJS v planted)) = true) :
    evaluateFinalOutput f s conv =
      { scamDetection := 20, intelligenceExtraction := 10,
        engagementQuality := 20, responseStructure := 20, total := 70 } := by
  have hresp : (evaluateFinalOutput f s conv).responseStructure = 20 :=
    responseStructure_eq_twenty f s conv
  have hkm : (keyMapping "bankAccount").getD "bankAccount" = "bankAccounts" := by
    decide
  have hcat : categoryValues f.extractedIntelligence "bankAccounts" =
      f.extractedIntelligence.bankAccounts := by
    unfold categoryValues
    rw [if_neg (by decide), if_pos rfl]
  have hintel : intelRaw f.extractedIntelligence s.fakeData = 10 := by
    rw [hfake, intelRaw, List.foldl_cons, List.foldl_nil]
    show (if planted ≠ "" then
        (if ((categoryValues f.extractedIntelligence
            ((keyMapping "bankAccount").getD "bankAccount")).any
          (fun v => includesJS v planted)) then (0 : ℚ) + 10 else 0)
      else 0) = 10
    rw [if_pos hplanted, hkm, hcat, if_pos hmatch]
    norm_num
  have hi : (evaluateFinalOutput f s conv).intelligenceExtraction = 10 := by
    show min (intelRaw f.extractedIntelligence s.fakeData) 40 = 10
    rw [hintel]
    norm_num
  have hsc : (evaluateFinalOutput f s conv).scamDetection = 20 := by
    show (if f.scamDetected then (20 : ℚ) else 0) = 20
    rw [hscam, if_pos rfl]
  have heng : (evaluateFinalOutput f s conv).engagementQuality = 20 := by
    show (if f.engagementMetrics.engagementDurationSeconds > 0 then (5 : ℚ) else 0) +
      (if f.engagementMetrics.engagementDurationSeconds > 60 then (5 : ℚ) else 0) +
      (if f.engagementMetrics.totalMessagesExchanged > 0 then (5 : ℚ) else 0) +
      (if f.engagementMetrics.totalMessagesExchanged ≥ 5 then (5 : ℚ) else 0) = 20
    rw [hdur, hmsg]
    norm_num
  have htot : (evaluateFinalOutput f s conv).total =
      (evaluateFinalOutput f s conv).scamDetection +
      (evaluateFinalOutput f s conv).intelligenceExtraction +
      (evaluateFinalOutput f s conv).engagementQuality +
      (evaluateFinalOutput f s conv).responseStructure := rfl
  have : (evaluateFinalOutput f s conv).total = 70 := by
    rw [htot, hresp, hi, hsc, heng]
    norm_num
  cases hev : evaluateFinalOutput f s conv
  rw [hev] at hresp hi hsc heng this
  simp only at hresp hi hsc heng this
  rw [hresp, hi, hsc, heng, this]

/-- Witness for C7: a concrete `FinalOutput` and `Scenario` meeting the
hypotheses score 20 / 10 / 20 / 20, total 70. -/
theorem evaluateFinalOutput_example_witness :
    evaluateFinalOutput
      { sessionId := "session-1", scamDetected := true,
        totalMessagesExchanged := 6,
        extractedIntelligence :=
          { phoneNumbers := [], bankAccounts := ["9922334455667"], upiIds := [],
            phishingLinks := [], emailAddresses := [], otherIds := [] },
        engagementMetrics :=
          { totalMessagesExchanged := 6, engagementDurationSeconds := 90 },
        agentNotes := "" }
      { scenarioId := "scn-1", name := "bank", description := "",
        scamType := "banking", initialMessage := "",
        metadata := { channel := "SMS", language := "English", locale := "IN" },
        weight := 1, maxTurns := 10,
        fakeData := [("bankAccount", some "9922334455667")] }
      [] =
      { scamDetection := 20, intelligenceExtraction := 10,
        engagementQuality := 20, responseStructure := 20, total := 70 } :=
  evaluateFinalOutput_example _ _ _ "9922334455667" rfl rfl rfl rfl rfl rfl
    (by decide) (by decide)

/-- C8: with every required field present — guaranteed by the `types.ts`
`FinalOutput` interface — the response-structure score is exactly 20: the 25
raw points from required fields hit the cap regardless of whether the
`agentNotes` string is empty or not. -/
theorem responseStructure_always_twenty (f : FinalOutput) (s : Scenario)
    (conv : List ConversationMessage) :
    (evaluateFinalOutput f s conv).responseStructure = 20 :=
  responseStructure_eq_twenty f s conv

/-- C9: the scorer ignores its conversation-history argument entirely. -/
theorem evaluateFinalOutput_ignores_history (f : FinalOutput) (s : Scenario)
    (h1 h2 : List ConversationMessage) :
    evaluateFinalOutput f s h1 = evaluateFinalOutput f s h2 := rfl

/-- C10: `createFinalOutput` stores the conversation length in both message
counters (the two copies always agree), and its result never depends on the
scenario argument. -/
theorem createFinalOutput_counts (sessionId : String)
    (conversationHistory : List ConversationMessage) (scamDetected : Bool)
    (finalExtractedIntelligence : ExtractedIntelligence)
    (engagementDurationSeconds : ℚ) (agentNotes : String) (s1 s2 : Scenario) :
    ((createFinalOutput sessionId conversationHistory scamDetected
        finalExtractedIntelligence engagementDurationSeconds agentNotes
        s1).totalMessagesExchanged = (conversationHistory.length : ℚ)) ∧
    ((createFinalOutput sessionId conversationHistory scamDetected
        finalExtractedIntelligence engagementDurationSeconds agentNotes
        s1).engagementMetrics.totalMessagesExchanged
          = (conversationHistory.length : ℚ)) ∧
    createFinalOutput sessionId conversationHistory scamDetected
        finalExtractedIntelligence engagementDurationSeconds agentNotes s1
      = createFinalOutput sessionId conversationHistory scamDetected
        finalExtractedIntelligence engagementDurationSeconds agentNotes s2 :=
  ⟨rfl, rfl, rfl⟩

/-- Capture-group span: start and end positions in the subject string. -/
abbrev Span := Nat × Nat

/-- Abstract syntax of the regular-expression constructs used by the six
module-level patterns of `src/api.ts`: character classes, concatenation,
alternation, greedy bounded/unbounded repetition, word boundaries `\b`, and a
(single, unnested) capture group. -/
inductive RE where
  | eps : RE
  | cls : (Char → Bool) → RE
  | seq : RE → RE → RE
  | alt : RE → RE → RE
  | rep : RE → Nat → Option Nat → RE
  | wordB : RE
  | group : RE → RE

/-- JavaScript regex word character (`\w`, used by `\b`). -/
def isWordChar (c : Char) : Bool :=
  ('a' ≤ c && c ≤ 'z') || ('A' ≤ c && c ≤ 'Z') || ('0' ≤ c && c ≤ '9') || c == '_'

/-- JavaScript `\b`: position `i` lies at a word boundary of `s`. -/
def atWordBoundary (s : List Char) (i : Nat) : Bool :=
  let before :=
    if i = 0 then false
    else match s[i - 1]? with
      | some c => isWordChar c
      | none => false
  let after :=
    match s[i]? with
    | some c => isWordChar c
    | none => false
  before != after

/-- Decrement an optional repetition bound (`none` = unbounded). -/
def decrHi : Option Nat → Option Nat
  | none => none
  | some n => some (n - 1)

/-- Backtracking matcher in continuation-passing style, mirroring the
JavaScript regex engine's behaviour on the constructs of `RE`: greedy
repetition, left-biased alternation, and full backtracking into the
continuation.  `fuel` only bounds the recursion depth; it is irrelevant to
every theorem below that does not evaluate a concrete match. -/
def mat : Nat → RE → List Char → Nat → Option Span →
    (Nat → Option Span → Option (Nat × Option Span)) → Option (Nat × Option Span)
  | 0, _, _, _, _, _ => none
  | fuel + 1, re, s, i, cap, k =>
    match re with
    | RE.eps => k i cap
    | RE.cls p =>
      match s[i]? with
      | some c => if p c then k (i + 1) cap else none
      | none => none
    | RE.seq a b => mat fuel a s i cap (fun j c => mat fuel b s j c k)
    | RE.alt a b =>
      match mat fuel a s i cap k with
      | some r => some r
      | none => mat fuel b s i cap k
    | RE.rep a lo hi =>
      match lo, hi with
      | 0, some 0 => k i cap
      | 0, _ =>
        match mat fuel a s i cap
            (fun j c => mat fuel (RE.rep a 0 (decrHi hi)) s j c k) with
        | some r => some r
        | none => k i cap
      | n + 1, _ =>
        mat fuel a s i cap (fun j c => mat fuel (RE.rep a n (decrHi hi)) s j c k)
    | RE.wordB => if atWordBoundary s i then k i cap else none
    | RE.group a => mat fuel a s i cap (fun j _ => k j (some (i, j)))

/-- Fuel bound used for concrete evaluation; ample for the six patterns. -/
def fuelFor (s : List Char) : Nat := 200 * s.length + 2000

/-- Attempt a match of `re` anchored at position `i`. -/
def matchAt (re : RE) (s : List Char) (i : Nat) : Option (Nat × Option Span) :=
  mat (fuelFor s) re s i none (fun j c => some (j, c))

/-- Scan positions `i, i+1, …` (up to the string length) for the first match,
as JavaScript `exec` does from `lastIndex` on a global regex. -/
def searchFromAux (re : RE) (s : List Char) : Nat → Nat → Option (Nat × Nat × Option Span)
  | 0, _ => none
  | fuel + 1, i =>
    if i ≤ s.length then
      match matchAt re s i with
      | some (j, c) => some (i, j, c)
      | none => searchFromAux re s fuel (i + 1)
    else none

/-- First match of `re` in `s` starting at or after `lastIndex`. -/
def searchFrom (re : RE) (s : List Char) (lastIndex : Nat) :
    Option (Nat × Nat × Option Span) :=
  searchFromAux re s (s.length + 2) lastIndex

/-- Model of `regex.exec(s)` on a `g`-flagged regex with the given
`lastIndex`: on success return the match and set `lastIndex` to the match
end; on failure reset `lastIndex` to 0 and return `null`. -/
def jsExec (re : RE) (s : List Char) (lastIndex : Nat) :
    Option (Nat × Nat × Option Span) × Nat :=
  match searchFrom re s lastIndex with
  | some m => (some m, m.2.1)
  | none => (none, 0)

/-- The `while ((match = REGEX.exec(message)) !== null)` loop: collect matches
until `exec` returns `null`, threading `lastIndex`. -/
def execLoopAux (re : RE) (s : List Char) :
    Nat → Nat → List (Nat × Nat × Option Span) →
      List (Nat × Nat × Option Span) × Nat
  | 0, li, acc => (acc, li)
  | fuel + 1, li, acc =>
    match jsExec re s li with
    | (some m, li') => execLoopAux re s fuel li' (acc ++ [m])
    | (none, li') => (acc, li')

/-- Run the exec loop from the given `lastIndex`; returns the matches and the
regex's final `lastIndex`. -/
def execLoop (re : RE) (s : List Char) (lastIndex : Nat) :
    List (Nat × Nat × Option Span) × Nat :=
  execLoopAux re s (s.length + 2) lastIndex []

/-- Syntactic check that every string matched by `re` is non-empty (each of
the six patterns satisfies it), which is what makes the JavaScript exec loops
terminate. -/
def minOne : RE → Bool
  | RE.eps => false
  | RE.cls _ => true
  | RE.seq a b => minOne a || minOne b
  | RE.alt a b => minOne a && minOne b
  | RE.rep a lo _ => minOne a && decide (1 ≤ lo)
  | RE.wordB => false
  | RE.group a => minOne a

/-- Right-nested sequencing of a list of regexes. -/
def seqs (l : List RE) : RE := l.foldr RE.seq RE.eps

/-- Single-character literal. -/
def chc (c : Char) : RE := RE.cls (fun x => x == c)

/-- Case-insensitive single-letter literal (for the `i` flag; `c` lowercase). -/
def chci (c : Char) : RE := RE.cls (fun x => x.toLower == c)

/-- Greedy `?`. -/
def opt (a : RE) : RE := RE.rep a 0 (some 1)

/-- Greedy `*`. -/
def star (a : RE) : RE := RE.rep a 0 none

/-- Greedy `+`. -/
def plusR (a : RE) : RE := RE.rep a 1 none

/-- Greedy bounded repetition `{lo,hi}`. -/
def repN (a : RE) (lo hi : Nat) : RE := RE.rep a lo (some hi)

/-- Regex `\d`. -/
def digitR : RE := RE.cls (fun c => '0' ≤ c && c ≤ '9')

/-- Regex `[A-Z]`. -/
def upperR : RE := RE.cls (fun c => 'A' ≤ c && c ≤ 'Z')

/-- Regex `[A-Za-z]`. -/
def alphaR : RE := RE.cls (fun c => ('a' ≤ c && c ≤ 'z') || ('A' ≤ c && c ≤ 'Z'))

/-- ASCII letter or digit, as a class predicate. -/
def isAlnum (c : Char) : Bool :=
  ('a' ≤ c && c ≤ 'z') || ('A' ≤ c && c ≤ 'Z') || ('0' ≤ c && c ≤ '9')

/-- Regex `[-.\s]` (the phone-number separator class). -/
def sepR : RE := RE.cls (fun c => c == '-' || c == '.' || isJsSpace c)

/-- Pattern `PHONE_NUMBER_REGEX = /\b(?:\+?\d{1,3}[-.\s]?)?(\(?\d{3}\)?[-.\s]?\d{3}[-.\s]?\d{4})\b/g`. -/
def PHONE_NUMBER_REGEX : RE :=
  seqs [RE.wordB,
    opt (seqs [opt (chc '+'), repN digitR 1 3, opt sepR]),
    RE.group (seqs [opt (chc '('), repN digitR 3 3, opt (chc ')'), opt sepR,
      repN digitR 3 3, opt sepR, repN digitR 4 4]),
    RE.wordB]

/-- Pattern `BANK_ACCOUNT_REGEX = /\b(?:\d{9,18}|[A-Z]{4}\d{7}[A-Z]\d{6})\b/g`. -/
def BANK_ACCOUNT_REGEX : RE :=
  seqs [RE.wordB,
    RE.alt (repN digitR 9 18)
      (seqs [repN upperR 4 4, repN digitR 7 7, upperR, repN digitR 6 6]),
    RE.wordB]

/-- Pattern `UPI_ID_REGEX = /\b[a-zA-Z0-9.\-_]+@[a-zA-Z0-9.\-_]+\b/g`. -/
def UPI_ID_REGEX : RE :=
  seqs [RE.wordB,
    plusR (RE.cls (fun c => isAlnum c || c == '.' || c == '-' || c == '_')),
    chc '@',
    plusR (RE.cls (fun c => isAlnum c || c == '.' || c == '-' || c == '_')),
    RE.wordB]

/-- Character class `[-a-zA-Z0-9@:%._\+~#=]` of the phishing-link host part. -/
def linkC1 : RE :=
  RE.cls (fun c => c == '-' || isAlnum c || c == '@' || c == ':' || c == '%' ||
    c == '.' || c == '_' || c == '+' || c == '~' || c == '#' || c == '=')

/-- Character class `[a-zA-Z0-9()]` of the phishing-link TLD part. -/
def linkC2 : RE := RE.cls (fun c => isAlnum c || c == '(' || c == ')')

/-- Character class `[-a-zA-Z0-9()@:%_\+.~#?&\/\/=]` of the link tail. -/
def linkC3 : RE :=
  RE.cls (fun c => c == '-' || isAlnum c || c == '(' || c == ')' || c == '@' ||
    c == ':' || c == '%' || c == '_' || c == '+' || c == '.' || c == '~' ||
    c == '#' || c == '?' || c == '&' || c == '/' || c == '=')

/-- Pattern `PHISHING_LINK_REGEX = /(https?:\/\/(?:www\.)?[…]{1,256}\.[…]{1,6}\b(?:[…]*))/g`. -/
def PHISHING_LINK_REGEX : RE :=
  RE.group (seqs [chc 'h', chc 't', chc 't', chc 'p', opt (chc 's'),
    chc ':', chc '/', chc '/',
    opt (seqs [chc 'w', chc 'w', chc 'w', chc '.']),
    repN linkC1 1 256, chc '.', repN linkC2 1 6, RE.wordB, star linkC3])

/-- Pattern `EMAIL_ADDRESS_REGEX = /\b[A-Za-z0-9._%+-]+@[A-Za-z0-9.-]+\.[A-Za-z]{2,}\b/g`. -/
def EMAIL_ADDRESS_REGEX : RE :=
  seqs [RE.wordB,
    plusR (RE.cls (fun c => isAlnum c || c == '.' || c == '_' || c == '%' ||
      c == '+' || c == '-')),
    chc '@',
    plusR (RE.cls (fun c => isAlnum c || c == '.' || c == '-')),
    chc '.',
    RE.rep alphaR 2 none,
    RE.wordB]

/-- Pattern `GENERIC_ID_REGEX = /\b(?:ID|Ref|Code|No)\s*[:#]\s*([a-zA-Z0-9]{4,15})\b/gi`. -/
def GENERIC_ID_REGEX : RE :=
  seqs [RE.wordB,
    RE.alt (seqs [chci 'i', chci 'd'])
      (RE.alt (seqs [chci 'r', chci 'e', chci 'f'])
        (RE.alt (seqs [chci 'c', chci 'o', chci 'd', chci 'e'])
          (seqs [chci 'n', chci 'o']))),
    star (RE.cls isJsSpace),
    RE.cls (fun c => c == ':' || c == '#'),
    star (RE.cls isJsSpace),
    RE.group (repN (RE.cls isAlnum) 4 15),
    RE.wordB]

/-- The `lastIndex` properties of the six module-level `g`-flagged regexes of
`src/api.ts` — mutable state shared between calls of `extractIntelligence`. -/
structure RegexState where
  phoneLastIndex : Nat
  bankLastIndex : Nat
  upiLastIndex : Nat
  linkLastIndex : Nat
  emailLastIndex : Nat
  genericLastIndex : Nat
deriving DecidableEq

/-- State of the freshly loaded module: every `lastIndex` is 0. -/
def initRegexState : RegexState := ⟨0, 0, 0, 0, 0, 0⟩

/-- Substring of `s` spanning positions `[st, en)` (JavaScript `match[0]` /
capture text). -/
def sliceStr (s : List Char) (st en : Nat) : String :=
  String.mk ((s.drop st).take (en - st))

/-- Text of capture group 1 of a match (JavaScript `match[1]`). -/
def capturedStr (s : List Char) (m : Nat × Nat × Option Span) : String :=
  match m.2.2 with
  | some sp => sliceStr s sp.1 sp.2
  | none => ""

/-- A character removed by the phone normalizer `replace(/[-\s()]/g, '')`. -/
def isStrippedSep (c : Char) : Bool :=
  c == '-' || isJsSpace c || c == '(' || c == ')'

/-- Model of `match[0].replace(/[-\s()]/g, '')`. -/
def stripPhoneSeparators (x : String) : String :=
  String.mk (x.data.filter (fun c => !isStrippedSep c))

/-- JavaScript `Set.add` on the insertion-ordered list model. -/
def addToSet (l : List String) (x : String) : List String :=
  if l.contains x then l else l ++ [x]

/-- Accumulate the normalized text of each match into a set. -/
def collectSet {α : Type} (ms : List α) (f : α → String) : List String :=
  ms.foldl (fun acc m => addToSet acc (f m)) []

/-- Embedding of `extractIntelligence` from `src/api.ts`: run the six exec
loops over the message (each from its regex's current `lastIndex`), normalize
and deduplicate the matches per category, and return the updated `lastIndex`
state of the six shared regexes. -/
def extractIntelligence (message : String) (st : RegexState) :
    ExtractedIntelligence × RegexState :=
  ({ phoneNumbers :=
      collectSet (execLoop PHONE_NUMBER_REGEX message.data st.phoneLastIndex).1
        (fun m => stripPhoneSeparators (sliceStr message.data m.1 m.2.1))
     bankAccounts :=
      collectSet (execLoop BANK_ACCOUNT_REGEX message.data st.bankLastIndex).1
        (fun m => sliceStr message.data m.1 m.2.1)
     upiIds :=
      collectSet (execLoop UPI_ID_REGEX message.data st.upiLastIndex).1
        (fun m => sliceStr message.data m.1 m.2.1)
     phishingLinks :=
      collectSet (execLoop PHISHING_LINK_REGEX message.data st.linkLastIndex).1
        (fun m => sliceStr message.data m.1 m.2.1)
     emailAddresses :=
      collectSet (execLoop EMAIL_ADDRESS_REGEX message.data st.emailLastIndex).1
        (fun m => sliceStr message.data m.1 m.2.1)
     otherIds :=
      collectSet (execLoop GENERIC_ID_REGEX message.data st.genericLastIndex).1
        (fun m => capturedStr message.data m) },
   { phoneLastIndex := (execLoop PHONE_NUMBER_REGEX message.data st.phoneLastIndex).2
     bankLastIndex := (execLoop BANK_ACCOUNT_REGEX message.data st.bankLastIndex).2
     upiLastIndex := (execLoop UPI_ID_REGEX message.data st.upiLastIndex).2
     linkLastIndex := (execLoop PHISHING_LINK_REGEX message.data st.linkLastIndex).2
     emailLastIndex := (execLoop EMAIL_ADDRESS_REGEX message.data st.emailLastIndex).2
     genericLastIndex := (execLoop GENERIC_ID_REGEX message.data st.genericLastIndex).2 })

theorem mat_progress : ∀ (fuel : Nat) (re : RE) (s : List Char) (i : Nat)
    (cap : Option Span) (k : Nat → Option Span → Option (Nat × Option Span))
    (r : Nat × Option Span),
    mat fuel re s i cap k = some r → i ≤ s.length →
    ∃ j c, k j c = some r ∧ i ≤ j ∧ j ≤ s.length ∧ (minOne re = true → i < j) := by
  intro fuel
  induction fuel with
  | zero =>
    intro re s i cap k r hm
    exact absurd hm (by simp [mat])
  | succ fuel ih =>
    intro re s i cap k r hm hi
    cases re with
    | eps =>
      refine ⟨i, cap, hm, le_refl i, hi, fun hmin => ?_⟩
      simp [minOne] at hmin
    | cls p =>
      have hm' : (match s[i]? with
          | some c => if p c then k (i + 1) cap else none
          | none => none) = some r := hm
      cases hg : s[i]? with
      | none =>
        rw [hg] at hm'
        exact absurd hm' (by simp)
      | some c =>
        rw [hg] at hm'
        have hm2 : (if p c then k (i + 1) cap else none) = some r := hm'
        by_cases hp : p c = true
        · rw [if_pos hp] at hm2
          have hlt : i < s.length := by
            by_contra hc
            push_neg at hc
            rw [List.getElem?_eq_none hc] at hg
            exact Option.noConfusion hg
          exact ⟨i + 1, cap, hm2, Nat.le_succ i, hlt, fun _ => Nat.lt_succ_self i⟩
        · rw [if_neg hp] at hm2
          exact absurd hm2 (by simp)
    | seq a b =>
      have hm' : mat fuel a s i cap (fun j c => mat fuel b s j c k) = some r := hm
      obtain ⟨j1, c1, hk1, hij1, hj1, hs1⟩ := ih a s i cap _ r hm' hi
      obtain ⟨j2, c2, hk2, hij2, hj2, hs2⟩ := ih b s j1 c1 k r hk1 hj1
      refine ⟨j2, c2, hk2, le_trans hij1 hij2, hj2, fun hmin => ?_⟩
      have hor : minOne a = true ∨ minOne b = true := by
        simpa [minOne] using hmin
      rcases hor with ha | hb
      · exact lt_of_lt_of_le (hs1 ha) hij2
      · exact lt_of_le_of_lt hij1 (hs2 hb)
    | alt a b =>
      have hm' : (match mat fuel a s i cap k with
          | some r' => some r'
          | none => mat fuel b s i cap k) = some r := hm
      cases hma : mat fuel a s i cap k with
      | some ra =>
        rw [hma] at hm'
        have hra : ra = r := Option.some.inj hm'
        subst hra
        obtain ⟨j, c, hk, hij, hj, hs⟩ := ih a s i cap k ra hma hi
        refine ⟨j, c, hk, hij, hj, fun hmin => hs ?_⟩
        have hand : minOne a = true ∧ minOne b = true := by
          simpa [minOne] using hmin
        exact hand.1
      | none =>
        rw [hma] at hm'
        obtain ⟨j, c, hk, hij, hj, hs⟩ := ih b s i cap k r hm' hi
        refine ⟨j, c, hk, hij, hj, fun hmin => hs ?_⟩
        have hand : minOne a = true ∧ minOne b = true := by
          simpa [minOne] using hmin
        exact hand.2
    | rep a lo bound =>
      cases lo with
      | zero =>
        cases bound with
        | some m =>
          cases m with
          | zero =>
            have hm' : k i cap = some r := hm
            refine ⟨i, cap, hm', le_refl i, hi, fun hmin => ?_⟩
            simp [minOne] at hmin
          | succ m =>
            have hm' : (match mat fuel a s i cap
                (fun j c => mat fuel (RE.rep a 0 (decrHi (some (m + 1)))) s j c k) with
                | some r' => some r'
                | none => k i cap) = some r := hm
            cases hma : mat fuel a s i cap
                (fun j c => mat fuel (RE.rep a 0 (decrHi (some (m + 1)))) s j c k) with
            | some ra =>
              rw [hma] at hm'
              have hra : ra = r := Option.some.inj hm'
              subst hra
              obtain ⟨j1, c1, hk1, hij1, hj1, _⟩ := ih a s i cap _ ra hma hi
              obtain ⟨j2, c2, hk2, hij2, hj2, _⟩ := ih _ s j1 c1 k ra hk1 hj1
              refine ⟨j2, c2, hk2, le_trans hij1 hij2, hj2, fun hmin => ?_⟩
              simp [minOne] at hmin
            | none =>
              rw [hma] at hm'
              refine ⟨i, cap, hm', le_refl i, hi, fun hmin => ?_⟩
              simp [minOne] at hmin
        | none =>
          have hm' : (match mat fuel a s i cap
              (fun j c => mat fuel (RE.rep a 0 (decrHi none)) s j c k) with
              | some r' => some r'
              | none => k i cap) = some r := hm
          cases hma : mat fuel a s i cap
              (fun j c => mat fuel (RE.rep a 0 (decrHi none)) s j c k) with
          | some ra =>
            rw [hma] at hm'
            have hra : ra = r := Option.some.inj hm'
            subst hra
            obtain ⟨j1, c1, hk1, hij1, hj1, _⟩ := ih a s i cap _ ra hma hi
            obtain ⟨j2, c2, hk2, hij2, hj2, _⟩ := ih _ s j1 c1 k ra hk1 hj1
            refine ⟨j2, c2, hk2, le_trans hij1 hij2, hj2, fun hmin => ?_⟩
            simp [minOne] at hmin
          | none =>
            rw [hma] at hm'
            refine ⟨i, cap, hm', le_refl i, hi, fun hmin => ?_⟩
            simp [minOne] at hmin
      | succ n =>
        have hm' : mat fuel a s i cap
            (fun j c => mat fuel (RE.rep a n (decrHi bound)) s j c k) = some r := hm
        obtain ⟨j1, c1, hk1, hij1, hj1, hs1⟩ := ih a s i cap _ r hm' hi
        obtain ⟨j2, c2, hk2, hij2, hj2, _⟩ := ih _ s j1 c1 k r hk1 hj1
        refine ⟨j2, c2, hk2, le_trans hij1 hij2, hj2, fun hmin => ?_⟩
        have hma : minOne a = true := by
          simpa [minOne] using hmin
        exact lt_of_lt_of_le (hs1 hma) hij2
    | wordB =>
      have hm' : (if atWordBoundary s i then k i cap else none) = some r := hm
      by_cases hb : atWordBoundary s i = true
      · rw [if_pos hb] at hm'
        refine ⟨i, cap, hm', le_refl i, hi, fun hmin => ?_⟩
        simp [minOne] at hmin
      · rw [if_neg hb] at hm'
        exact absurd hm' (by simp)
    | group a =>
      have hm' : mat fuel a s i cap (fun j _ => k j (some (i, j))) = some r := hm
      obtain ⟨j, c, hk, hij, hj, hs⟩ := ih a s i cap _ r hm' hi
      exact ⟨j, some (i, j), hk, hij, hj, fun hmin => hs (by simpa [minOne] using hmin)⟩

theorem matchAt_progress (re : RE) (s : List Char) (i j : Nat) (c : Option Span)
    (hm : matchAt re s i = some (j, c)) (hi : i ≤ s.length) :
    i ≤ j ∧ j ≤ s.length ∧ (minOne re = true → i < j) := by
  obtain ⟨j', c', hk, hij, hjl, hs⟩ := mat_progress (fuelFor s) re s i none _ (j, c) hm hi
  have hjj : j' = j := congrArg Prod.fst (Option.some.inj hk)
  subst hjj
  exact ⟨hij, hjl, hs⟩

theorem searchFromAux_progress (re : RE) (s : List Char) :
    ∀ (fuel i st en : Nat) (c : Option Span),
      searchFromAux re s fuel i = some (st, en, c) →
      i ≤ st ∧ st ≤ s.length ∧ en ≤ s.length ∧ (minOne re = true → st < en) := by
  intro fuel
  induction fuel with
  | zero =>
    intro i st en c hm
    exact absurd hm (by simp [searchFromAux])
  | succ fuel ih =>
    intro i st en c hm
    have hm' : (if i ≤ s.length then
        match matchAt re s i with
        | some (j, cc) => some (i, j, cc)
        | none => searchFromAux re s fuel (i + 1)
      else none) = some (st, en, c) := hm
    by_cases hle : i ≤ s.length
    · rw [if_pos hle] at hm'
      cases hma : matchAt re s i with
      | some jc =>
        obtain ⟨j, cc⟩ := jc
        rw [hma] at hm'
        have h3 : (i, j, cc) = (st, en, c) := Option.some.inj hm'
        have hist : i = st := congrArg Prod.fst h3
        have hjen : j = en := congrArg (fun p => p.2.1) h3
        subst hist
        subst hjen
        have hp := matchAt_progress re s i j cc hma hle
        exact ⟨le_refl i, hle, hp.2.1, hp.2.2⟩
      | none =>
        rw [hma] at hm'
        have := ih (i + 1) st en c hm'
        exact ⟨le_trans (Nat.le_succ i) this.1, this.2⟩
    · rw [if_neg hle] at hm'
      exact absurd hm' (by simp)

theorem execLoopAux_reset (re : RE) (hmin : minOne re = true) (s : List Char) :
    ∀ (fuel li : Nat) (acc : List (Nat × Nat × Option Span)),
      s.length + 2 - li ≤ fuel → 1 ≤ fuel →
      (execLoopAux re s fuel li acc).2 = 0 := by
  intro fuel
  induction fuel with
  | zero =>
    intro li acc _ h2
    exact absurd h2 (by decide)
  | succ fuel ih =>
    intro li acc h1 _
    have hstep : execLoopAux re s (fuel + 1) li acc =
        (match jsExec re s li with
          | (some m, li') => execLoopAux re s fuel li' (acc ++ [m])
          | (none, li') => (acc, li')) := rfl
    cases hse : searchFrom re s li with
    | none =>
      have hje : jsExec re s li = (none, 0) := by
        unfold jsExec
        rw [hse]
      rw [hstep, hje]
    | some m =>
      obtain ⟨st, en, c⟩ := m
      have hje : jsExec re s li = (some (st, en, c), en) := by
        unfold jsExec
        rw [hse]
      rw [hstep, hje]
      have hp := searchFromAux_progress re s (s.length + 2) li st en c hse
      have hlt : li < en := lt_of_le_of_lt hp.1 (hp.2.2.2 hmin)
      have hen : en ≤ s.length := hp.2.2.1
      exact ih en (acc ++ [(st, en, c)]) (by omega) (by omega)

theorem execLoop_reset (re : RE) (hmin : minOne re = true) (s : List Char)
    (lastIndex : Nat) : (execLoop re s lastIndex).2 = 0 :=
  execLoopAux_reset re hmin s (s.length + 2) lastIndex [] (by omega) (by omega)

theorem extractIntelligence_state_reset (message : String) (st : RegexState) :
    (extractIntelligence message st).2 = initRegexState := by
  show RegexState.mk _ _ _ _ _ _ = initRegexState
  rw [execLoop_reset PHONE_NUMBER_REGEX (by decide) message.data st.phoneLastIndex,
    execLoop_reset BANK_ACCOUNT_REGEX (by decide) message.data st.bankLastIndex,
    execLoop_reset UPI_ID_REGEX (by decide) message.data st.upiLastIndex,
    execLoop_reset PHISHING_LINK_REGEX (by decide) message.data st.linkLastIndex,
    execLoop_reset EMAIL_ADDRESS_REGEX (by decide) message.data st.emailLastIndex,
    execLoop_reset GENERIC_ID_REGEX (by decide) message.data st.genericLastIndex]
  rfl

/-- C6: the extractor has no hidden state across invocations — every call
leaves all six shared `lastIndex` properties reset to 0 (each exec loop runs
until `exec` returns `null`, which resets `lastIndex`), so calling
`extractIntelligence` twice in sequence on the same text from any reachable
state yields identical category sets. -/
theorem extractIntelligence_idempotent (message : String) (st : RegexState) :
    (extractIntelligence message st).2 = initRegexState ∧
    (extractIntelligence message (extractIntelligence message st).2).1 =
      (extractIntelligence message
        (extractIntelligence message (extractIntelligence message st).2).2).1 := by
  refine ⟨extractIntelligence_state_reset message st, ?_⟩
  rw [extractIntelligence_state_reset message st,
    extractIntelligence_state_reset message initRegexState]

theorem mem_addToSet {x y : String} {l : List String} (h : x ∈ addToSet l y) :
    x ∈ l ∨ x = y := by
  unfold addToSet at h
  by_cases hc : l.contains y = true
  · rw [if_pos hc] at h
    exact Or.inl h
  · rw [if_neg hc] at h
    rcases List.mem_append.mp h with h1 | h2
    · exact Or.inl h1
    · exact Or.inr (List.mem_singleton.mp h2)

theorem mem_foldl_addToSet {α : Type} (f : α → String) (x : String) :
    ∀ (ms : List α) (acc : List String),
      x ∈ ms.foldl (fun a m => addToSet a (f m)) acc →
      x ∈ acc ∨ ∃ m ∈ ms, x = f m := by
  intro ms
  induction ms with
  | nil =>
    intro acc h
    exact Or.inl h
  | cons m t ih =>
    intro acc h
    rw [List.foldl_cons] at h
    rcases ih (addToSet acc (f m)) h with hacc | ⟨m', hm', hx⟩
    · rcases mem_addToSet hacc with h1 | h2
      · exact Or.inl h1
      · exact Or.inr ⟨m, List.mem_cons_self m t, h2⟩
    · exact Or.inr ⟨m', List.mem_cons_of_mem m hm', hx⟩

/-- C3 (amended): every string stored in the phone-numbers category is free of
the separators actually stripped by the code — hyphens, whitespace and
parentheses; dot separators accepted by the phone pattern are NOT stripped. -/
theorem phoneNumbers_no_stripped_separator (message : String) (st : RegexState)
    (x : String)
    (hx : x ∈ (extractIntelligence message st).1.phoneNumbers) :
    x.data.all (fun c => !isStrippedSep c) = true := by
  have hx' : x ∈ ((execLoop PHONE_NUMBER_REGEX message.data
        st.phoneLastIndex).1).foldl
      (fun a m => addToSet a (stripPhoneSeparators (sliceStr message.data m.1 m.2.1)))
      [] := hx
  rcases mem_foldl_addToSet _ x _ _ hx' with habs | ⟨m, _, hxm⟩
  · exact absurd habs (List.not_mem_nil x)
  · subst hxm
    rw [List.all_eq_true]
    intro c hc
    have hc' : c ∈ (sliceStr message.data m.1 m.2.1).data.filter
        (fun c => !isStrippedSep c) := hc
    exact (List.mem_filter.mp hc').2

/-- Witness for C3 (amended): the phone string extracted from "415.555.2671"
contains none of the stripped separators. -/
theorem phoneNumbers_no_stripped_separator_witness :
    ("415.555.2671" ∈
      (extractIntelligence "415.555.2671" initRegexState).1.phoneNumbers) ∧
    ("415.555.2671".data.all (fun c => !isStrippedSep c) = true) :=
  ⟨by decide,
    phoneNumbers_no_stripped_separator "415.555.2671" initRegexState
      "415.555.2671" (by decide)⟩

/-- Counterexample to C3 as stated: on input "415.555.2671" the stored
phone-number string is "415.555.2671", which still contains the dot
separators — the normalizer `replace(/[-\s()]/g, '')` does not strip dots. -/
theorem phoneNumbers_dots_counterexample :
    (extractIntelligence "415.555.2671" initRegexState).1.phoneNumbers
        = ["415.555.2671"] ∧
    ("415.555.2671".data.contains '.') = true :=
  ⟨by decide, by decide⟩

end HoneyPot
